import Mathlib

/-!
Shallow embedding of the offline-first sync engine of this repository:
the shape-log decoder (ShapeProcessor), the durable pending-operation
queue (OfflineStorageService), the connection monitor (ConnectionMonitor),
the change-feed client (ElectricClient) and the sync coordinator
(SyncCoordinator).  Stateful TypeScript methods become pure functions over
explicit state; I/O outcomes (HTTP responses, fs success/failure, remote
call results) become explicit inputs; thrown exceptions become explicit
error values returned alongside the post-mutation state.
-/

set_option maxHeartbeats 1000000

/-! ## Log entry decoder (src/main/sync/electric/shape.processor.ts) -/

/-- The operation tag carried in a raw shape-log entry's headers
(`'insert' | 'update' | 'delete'`). -/
inductive ShapeOperation where
  | insert
  | update
  | delete
  deriving DecidableEq, Repr

/-- A JSON scalar as it can appear in the `completed` field of a todo value
coming off the feed: the source compares it against both the string
`'true'` and the boolean `true`. -/
inductive JsonVal where
  | str (v : String)
  | boolean (v : Bool)
  deriving DecidableEq, Repr

/-- The value payload of a feed entry / processed entry.  Each field is
`Option` because the source tests presence with `hasOwnProperty` /
truthiness. -/
structure TodoValue where
  title : Option String
  completed : Option JsonVal
  created_at : Option String
  deriving DecidableEq, Repr

/-- A raw shape-log entry as consumed by
`ShapeProcessor.processShapeLogEntries`:
`control` models `entry.headers && entry.headers.control` being truthy,
`operation` models `entry.headers?.operation` (present and truthy),
`key` models `entry.key` (`none` = absent, `some ""` = present but empty,
hence falsy in JS), `value` models `entry.value` (`|| null`). -/
structure RawEntry where
  control : Bool
  operation : Option ShapeOperation
  key : Option String
  value : Option TodoValue
  deriving DecidableEq, Repr

/-- Output form of the decoder (interface `ProcessedShapeEntry`). -/
structure ProcessedShapeEntry where
  operation : ShapeOperation
  id : String
  value : Option TodoValue
  deriving DecidableEq, Repr

/-- The double-quote character stripped from extracted ids. -/
def quoteChar : Char := Char.ofNat 34

/-- The `/` separator of the composite key. -/
def slashChar : Char := Char.ofNat 47

/-- Id extraction from the composite key: take the last `/`-separated
segment and strip every `"` character from it
(`entry.key.split('/')`, last element, `idWithQuotes?.replace(/"/g, '')`),
expressed over the string's character list. -/
def extractId (key : String) : String :=
  String.mk ((key.data.reverse.takeWhile (fun c => decide (c ≠ slashChar))).reverse.filter
    (fun c => decide (c ≠ quoteChar)))

/-- One iteration of the decoding loop: `none` means the entry is skipped
(control message, missing operation tag or key, or unparsable id);
`some` is the entry pushed onto `results`. -/
def decodeShapeEntry (entry : RawEntry) : Option ProcessedShapeEntry :=
  if entry.control then
    none
  else
    match entry.operation, entry.key with
    | some op, some k =>
      if k = "" then
        none
      else
        let id := extractId k
        if id = "" then none
        else some ⟨op, id, entry.value⟩
    | _, _ => none

/-- `ShapeProcessor.processShapeLogEntries`: the for-loop over the raw
entries, accumulating the decoded entries in order. -/
def processShapeLogEntries : List RawEntry → List ProcessedShapeEntry
  | [] => []
  | entry :: rest =>
    match decodeShapeEntry entry with
    | some p => p :: processShapeLogEntries rest
    | none => processShapeLogEntries rest

theorem processShapeLogEntries_append (xs ys : List RawEntry) :
    processShapeLogEntries (xs ++ ys)
      = processShapeLogEntries xs ++ processShapeLogEntries ys := by
  induction xs with
  | nil => rfl
  | cons e rest ih =>
    simp only [List.cons_append, processShapeLogEntries]
    cases decodeShapeEntry e <;> simp [ih]

/-- C7: a raw entry with an operation tag but whose composite key yields no
parsable entity id is skipped by the decoder — it does not appear in the
output and no error is raised — while the other entries of the same batch
are decoded exactly as they would be without it. -/
theorem processShapeLogEntries_skips_unparsable
    (pre post : List RawEntry) (e : RawEntry) (op : ShapeOperation) (k : String)
    (hctl : e.control = false) (hop : e.operation = some op)
    (hkey : e.key = some k) (hid : extractId k = "") :
    processShapeLogEntries (pre ++ e :: post)
      = processShapeLogEntries pre ++ processShapeLogEntries post := by
  have hdec : decodeShapeEntry e = none := by
    unfold decodeShapeEntry
    rw [hctl, hop, hkey]
    simp only [Bool.false_eq_true, if_false]
    by_cases hk : k = ""
    · simp [hk]
    · simp [hk, hid]
  rw [processShapeLogEntries_append]
  simp only [processShapeLogEntries, hdec]

/-- Witness for C7 at a concrete batch: the malformed entry (operation tag
`update`, key `"\""` whose last segment strips to the empty id) is dropped
while the two well-formed entries around it are decoded. -/
theorem processShapeLogEntries_skips_unparsable_witness :
    extractId "\"\"" = "" ∧
    processShapeLogEntries
        [⟨false, some .insert, some "\"public\".\"todos\"/\"t1\"", some ⟨some "a", none, none⟩⟩,
         ⟨false, some .update, some "\"\"", none⟩,
         ⟨false, some .delete, some "\"public\".\"todos\"/\"t2\"", none⟩]
      = processShapeLogEntries
          [⟨false, some .insert, some "\"public\".\"todos\"/\"t1\"", some ⟨some "a", none, none⟩⟩]
        ++ processShapeLogEntries
          [⟨false, some .delete, some "\"public\".\"todos\"/\"t2\"", none⟩] :=
  ⟨by decide,
   processShapeLogEntries_skips_unparsable
     [⟨false, some .insert, some "\"public\".\"todos\"/\"t1\"", some ⟨some "a", none, none⟩⟩]
     [⟨false, some .delete, some "\"public\".\"todos\"/\"t2\"", none⟩]
     ⟨false, some .update, some "\"\"", none⟩ .update "\"\""
     rfl rfl rfl (by decide)⟩

/-! ## Durable pending-operation store (src/main/sync/offline/offline.storage.ts) -/

/-- The pending-operation kind (`'create' | 'update' | 'delete'`). -/
inductive PendingOpType where
  | create
  | update
  | delete
  deriving DecidableEq, Repr

/-- Interface `PendingOperation` of the offline storage service.  The
payload is kept opaque (`data?: any` becomes `Option String`). -/
structure PendingOperation where
  type : PendingOpType
  todoId : String
  data : Option String
  timestamp : Nat
  deriving DecidableEq, Repr

/-- The two exceptions `addPendingOperation` can raise: the
`OfflineError` for a create/update without data, and the `OfflineError`
thrown by `savePendingOperations` when the disk write fails. -/
inductive OfflineErrorKind where
  | missingData
  | saveFailed
  deriving DecidableEq, Repr

/-- The in-place insert-or-replace of `addPendingOperation`: `findIndex`
of the first entry with the same `(todoId, type)` and assignment to that
slot, else `push`. -/
def insertOrReplace (q : List PendingOperation) (op : PendingOperation) :
    List PendingOperation :=
  match q with
  | [] => [op]
  | o :: rest =>
    if o.todoId = op.todoId ∧ o.type = op.type then
      op :: rest
    else
      o :: insertOrReplace rest op

/-- `OfflineStorageService.addPendingOperation`.  `saveOk` is the outcome
of the `fs.writeFileSync` inside `savePendingOperations`.  The returned
queue is the in-memory `this.pendingOperations` after the call — also when
the call throws, since the JS mutation happens before the save and is not
rolled back. -/
def addPendingOperation (saveOk : Bool) (now : Nat) (q : List PendingOperation)
    (t : PendingOpType) (todoId : String) (data : Option String) :
    List PendingOperation × Option OfflineErrorKind :=
  if (t = .create ∨ t = .update) ∧ data = none then
    (q, some .missingData)
  else
    let q' := insertOrReplace q ⟨t, todoId, data, now⟩
    (q', if saveOk then none else some .saveFailed)

/-- `OfflineStorageService.clearPendingOperation`: filter out the matching
operations (by `(todoId, type)` when a type is given, by `todoId` alone
otherwise). -/
def clearPendingOperation (q : List PendingOperation) (todoId : String)
    (t : Option PendingOpType) : List PendingOperation :=
  match t with
  | some ty => q.filter fun op => decide (¬(op.todoId = todoId ∧ op.type = ty))
  | none => q.filter fun op => decide (op.todoId ≠ todoId)

/-- The uniqueness key of a queue entry. -/
def opKey (op : PendingOperation) : String × PendingOpType :=
  (op.todoId, op.type)

/-- The queue invariant: at most one entry per `(todoId, type)` pair. -/
def queueUnique (q : List PendingOperation) : Prop :=
  (q.map opKey).Nodup

instance (q : List PendingOperation) : Decidable (queueUnique q) := by
  unfold queueUnique
  infer_instance

/-- One observable mutation of the queue, for stating the invariant over
arbitrary call sequences. -/
inductive QueueStep where
  | add (saveOk : Bool) (now : Nat) (t : PendingOpType) (todoId : String)
      (data : Option String)
  | clear (todoId : String) (t : Option PendingOpType)

/-- Apply one `addPendingOperation` / `clearPendingOperation` call. -/
def applyQueueStep (q : List PendingOperation) : QueueStep → List PendingOperation
  | .add saveOk now t todoId data => (addPendingOperation saveOk now q t todoId data).1
  | .clear todoId t => clearPendingOperation q todoId t

/-- The queue reached from the empty initial queue by a sequence of calls. -/
def runQueue (steps : List QueueStep) : List PendingOperation :=
  steps.foldl applyQueueStep []

theorem mem_insertOrReplace_key (q : List PendingOperation) (op x : PendingOperation)
    (hx : x ∈ insertOrReplace q op) : x = op ∨ x ∈ q := by
  induction q with
  | nil => simpa [insertOrReplace] using hx
  | cons o rest ih =>
    unfold insertOrReplace at hx
    by_cases h : o.todoId = op.todoId ∧ o.type = op.type
    · rw [if_pos h] at hx
      rcases List.mem_cons.mp hx with h1 | h1
      · exact Or.inl h1
      · exact Or.inr (List.mem_cons_of_mem _ h1)
    · rw [if_neg h] at hx
      rcases List.mem_cons.mp hx with h1 | h1
      · exact Or.inr (h1 ▸ List.mem_cons_self _ _)
      · rcases ih h1 with h2 | h2
        · exact Or.inl h2
        · exact Or.inr (List.mem_cons_of_mem _ h2)

theorem insertOrReplace_unique (q : List PendingOperation) (op : PendingOperation)
    (h : queueUnique q) : queueUnique (insertOrReplace q op) := by
  induction q with
  | nil => simp [insertOrReplace, queueUnique]
  | cons o rest ih =>
    unfold queueUnique at h
    simp only [List.map_cons, List.nodup_cons] at h
    obtain ⟨hno, hrest⟩ := h
    unfold insertOrReplace
    by_cases hk : o.todoId = op.todoId ∧ o.type = op.type
    · rw [if_pos hk]
      unfold queueUnique
      simp only [List.map_cons, List.nodup_cons]
      refine ⟨fun hc => hno ?_, hrest⟩
      have : opKey o = opKey op := by
        simp [opKey, hk.1, hk.2]
      rw [this]
      exact hc
    · rw [if_neg hk]
      unfold queueUnique
      simp only [List.map_cons, List.nodup_cons]
      refine ⟨?_, ih hrest⟩
      intro hc
      rcases List.mem_map.mp hc with ⟨x, hxmem, hxkey⟩
      rcases mem_insertOrReplace_key rest op x hxmem with h1 | h1
      · subst h1
        apply hk
        have h2 : o.todoId = x.todoId ∧ o.type = x.type := by
          have := hxkey
          unfold opKey at this
          exact ⟨(congrArg Prod.fst this).symm, (congrArg Prod.snd this).symm⟩
        exact h2
      · exact hno (List.mem_map.mpr ⟨x, h1, hxkey⟩)

theorem addPendingOperation_unique (saveOk : Bool) (now : Nat)
    (q : List PendingOperation) (t : PendingOpType) (todoId : String)
    (data : Option String) (h : queueUnique q) :
    queueUnique (addPendingOperation saveOk now q t todoId data).1 := by
  unfold addPendingOperation
  by_cases hv : (t = .create ∨ t = .update) ∧ data = none
  · rw [if_pos hv]
    exact h
  · rw [if_neg hv]
    exact insertOrReplace_unique q _ h

theorem clearPendingOperation_unique (q : List PendingOperation) (todoId : String)
    (t : Option PendingOpType) (h : queueUnique q) :
    queueUnique (clearPendingOperation q todoId t) := by
  unfold queueUnique at h ⊢
  cases t with
  | some ty => exact List.Nodup.sublist (List.Sublist.map opKey (List.filter_sublist q)) h
  | none => exact List.Nodup.sublist (List.Sublist.map opKey (List.filter_sublist q)) h

theorem filter_key_eq_nil (q : List PendingOperation) (key : String × PendingOpType)
    (h : key ∉ q.map opKey) :
    q.filter (fun o => decide (opKey o = key)) = [] := by
  induction q with
  | nil => rfl
  | cons o rest ih =>
    simp only [List.map_cons, List.mem_cons] at h
    push_neg at h
    rw [List.filter_cons]
    rw [decide_eq_false fun hc => h.1 hc.symm]
    simpa using ih h.2

theorem self_mem_insertOrReplace (q : List PendingOperation) (op : PendingOperation) :
    op ∈ insertOrReplace q op := by
  induction q with
  | nil => simp [insertOrReplace]
  | cons o rest ih =>
    unfold insertOrReplace
    by_cases h : o.todoId = op.todoId ∧ o.type = op.type
    · rw [if_pos h]
      exact List.mem_cons_self _ _
    · rw [if_neg h]
      exact List.mem_cons_of_mem _ ih

theorem insertOrReplace_filter_key (q : List PendingOperation) (op : PendingOperation)
    (h : queueUnique q) :
    (insertOrReplace q op).filter (fun o => decide (opKey o = opKey op)) = [op] := by
  induction q with
  | nil => simp [insertOrReplace]
  | cons o rest ih =>
    unfold queueUnique at h
    simp only [List.map_cons, List.nodup_cons] at h
    obtain ⟨hno, hrest⟩ := h
    unfold insertOrReplace
    by_cases hk : o.todoId = op.todoId ∧ o.type = op.type
    · rw [if_pos hk]
      rw [List.filter_cons]
      rw [decide_eq_true (by rfl : opKey op = opKey op)]
      simp only [if_true]
      have hkey : opKey op = opKey o := by
        simp [opKey, hk.1, hk.2]
      rw [show (fun o => decide (opKey o = opKey op)) = (fun x => decide (opKey x = opKey o)) by
        funext x; rw [hkey]]
      rw [filter_key_eq_nil rest (opKey o) hno]
    · rw [if_neg hk]
      rw [List.filter_cons]
      have hne : opKey o ≠ opKey op := by
        intro hc
        exact hk ⟨congrArg Prod.fst hc, congrArg Prod.snd hc⟩
      rw [decide_eq_false hne]
      simpa using ih hrest

theorem runQueue_unique_from (steps : List QueueStep) :
    ∀ q : List PendingOperation, queueUnique q →
      queueUnique (steps.foldl applyQueueStep q) := by
  induction steps with
  | nil => intro q h; exact h
  | cons s rest ih =>
    intro q h
    rw [List.foldl_cons]
    apply ih
    cases s with
    | add saveOk now t todoId data => exact addPendingOperation_unique saveOk now q t todoId data h
    | clear todoId t => exact clearPendingOperation_unique q todoId t h

/-- C3: after every sequence of `addPendingOperation` and
`clearPendingOperation` calls (from the empty initial queue), the pending
queue holds at most one operation per `(todoId, type)` pair; and enqueuing
an operation onto a queue satisfying the invariant leaves exactly one
entry with that key — the freshly enqueued one, carrying the latest
payload. -/
theorem pendingQueue_unique_per_key :
    (∀ steps : List QueueStep, queueUnique (runQueue steps)) ∧
    (∀ (saveOk : Bool) (now : Nat) (q : List PendingOperation) (t : PendingOpType)
        (todoId : String) (data : Option String),
      queueUnique q → ¬((t = .create ∨ t = .update) ∧ data = none) →
      (addPendingOperation saveOk now q t todoId data).1.filter
          (fun o => decide (opKey o = (todoId, t))) = [⟨t, todoId, data, now⟩]) := by
  constructor
  · intro steps
    exact runQueue_unique_from steps [] (by simp [queueUnique])
  · intro saveOk now q t todoId data huniq hvalid
    unfold addPendingOperation
    rw [if_neg hvalid]
    have hkey : opKey (⟨t, todoId, data, now⟩ : PendingOperation) = (todoId, t) := rfl
    rw [← hkey]
    exact insertOrReplace_filter_key q _ huniq

/-- Witness for C3: two Updates for todo `A` (the second with a newer
payload) collapse to exactly one queue entry holding the latest payload. -/
theorem pendingQueue_unique_per_key_witness :
    queueUnique (runQueue
      [QueueStep.add true 1 .update "A" (some "p1"),
       QueueStep.add true 2 .update "A" (some "p2")]) ∧
    (addPendingOperation true 2 [⟨.update, "A", some "p1", 1⟩] .update "A"
        (some "p2")).1.filter (fun o => decide (opKey o = ("A", .update)))
      = [⟨.update, "A", some "p2", 2⟩] :=
  ⟨pendingQueue_unique_per_key.1
     [QueueStep.add true 1 .update "A" (some "p1"),
      QueueStep.add true 2 .update "A" (some "p2")],
   pendingQueue_unique_per_key.2 true 2 [⟨.update, "A", some "p1", 1⟩] .update "A"
     (some "p2") (by decide) (by decide)⟩

/-- C8: when the disk write inside `savePendingOperations` fails,
`addPendingOperation` raises the `OfflineError`, but the in-memory queue
already holds the inserted-or-replaced operation — the mutation is not
rolled back. -/
theorem addPendingOperation_saveFailure_keeps_mutation
    (q : List PendingOperation) (t : PendingOpType) (todoId : String)
    (data : Option String) (now : Nat)
    (hvalid : ¬((t = .create ∨ t = .update) ∧ data = none)) :
    (addPendingOperation false now q t todoId data).2 = some .saveFailed ∧
    (⟨t, todoId, data, now⟩ : PendingOperation)
        ∈ (addPendingOperation false now q t todoId data).1 ∧
    (addPendingOperation false now q t todoId data).1
        = insertOrReplace q ⟨t, todoId, data, now⟩ := by
  unfold addPendingOperation
  rw [if_neg hvalid]
  exact ⟨rfl, self_mem_insertOrReplace q _, rfl⟩

/-- Witness for C8: a Create enqueued while the disk write fails still
lands in the in-memory queue, and the error is surfaced. -/
theorem addPendingOperation_saveFailure_keeps_mutation_witness :
    (addPendingOperation false 7 [] .create "t1" (some "milk")).2
        = some .saveFailed ∧
    (⟨.create, "t1", some "milk", 7⟩ : PendingOperation)
        ∈ (addPendingOperation false 7 [] .create "t1" (some "milk")).1 ∧
    (addPendingOperation false 7 [] .create "t1" (some "milk")).1
        = insertOrReplace [] ⟨.create, "t1", some "milk", 7⟩ :=
  addPendingOperation_saveFailure_keeps_mutation [] .create "t1" (some "milk") 7
    (by decide)

/-! ## Connection monitor (src/main/sync/coordinator/connection.monitor.ts) -/

/-- The aggregate tri-state connection status
(`'online' | 'offline' | 'syncing'`). -/
inductive ConnectionStatus where
  | online
  | offline
  | syncing
  deriving DecidableEq, Repr

/-- The mutable fields of `ConnectionMonitor` read and written by
`checkConnections`, plus the configured failure threshold
(`MAX_CONSECUTIVE_FAILURES`, default 3). -/
structure MonitorState where
  currentStatus : ConnectionStatus
  consecutiveElectricFailures : Nat
  consecutiveSupabaseFailures : Nat
  electricOnline : Bool
  supabaseOnline : Bool
  maxConsecutiveFailures : Nat
  deriving DecidableEq, Repr

/-- `ConnectionMonitor.checkConnections`: one probe cycle, given the two
probe results.  Counters increment on failure and reset to 0 on success;
the aggregate status is `offline` exactly when both counters have reached
the threshold, else `online`. -/
def checkConnections (s : MonitorState) (isElectricOnline isSupabaseOnline : Bool) :
    MonitorState :=
  let cef := if isElectricOnline then 0 else s.consecutiveElectricFailures + 1
  let csf := if isSupabaseOnline then 0 else s.consecutiveSupabaseFailures + 1
  let isAppOffline :=
    s.maxConsecutiveFailures ≤ cef ∧ s.maxConsecutiveFailures ≤ csf
  { s with
    electricOnline := isElectricOnline
    supabaseOnline := isSupabaseOnline
    consecutiveElectricFailures := cef
    consecutiveSupabaseFailures := csf
    currentStatus := if isAppOffline then .offline else .online }

/-- `ConnectionMonitor.setSyncing`: the coordinator forces the aggregate
status to `syncing`; counters are untouched. -/
def setSyncing (s : MonitorState) : MonitorState :=
  { s with currentStatus := .syncing }

/-- C4: the aggregate status becomes `offline` only when both upstreams
have accumulated at least the configured threshold of consecutive probe
failures; a successful probe resets that upstream's counter to 0; with the
default threshold 3, two consecutive failed probes of a single upstream
(the other succeeding) leave the aggregate `online`, while a third
consecutive failure of both upstreams flips it to `offline`. -/
theorem connectionMonitor_debounce (s : MonitorState) (e su : Bool) :
    ((checkConnections s e su).currentStatus = .offline ↔
      (s.maxConsecutiveFailures ≤ (checkConnections s e su).consecutiveElectricFailures ∧
       s.maxConsecutiveFailures ≤ (checkConnections s e su).consecutiveSupabaseFailures)) ∧
    (e = true → (checkConnections s e su).consecutiveElectricFailures = 0) ∧
    (su = true → (checkConnections s e su).consecutiveSupabaseFailures = 0) ∧
    (s.maxConsecutiveFailures = 3 → s.currentStatus = .online →
      (checkConnections (checkConnections s false true) false true).currentStatus
        = .online) ∧
    (s.maxConsecutiveFailures = 3 → s.currentStatus = .online →
      (checkConnections (checkConnections s true false) true false).currentStatus
        = .online) ∧
    (s.maxConsecutiveFailures = 3 → s.consecutiveElectricFailures = 0 →
      s.consecutiveSupabaseFailures = 0 →
      (checkConnections (checkConnections s false false) false false).currentStatus
          = .online ∧
      (checkConnections (checkConnections (checkConnections s false false) false false)
          false false).currentStatus = .offline) := by
  refine ⟨?_, ?_, ?_, ?_, ?_, ?_⟩
  · unfold checkConnections
    by_cases h : s.maxConsecutiveFailures ≤ (if e then 0 else s.consecutiveElectricFailures + 1)
        ∧ s.maxConsecutiveFailures ≤ (if su then 0 else s.consecutiveSupabaseFailures + 1)
    · simp only [if_pos h]
      simpa using h
    · simp only [if_neg h]
      constructor
      · intro hc
        cases hc
      · intro hc
        exact absurd hc h
  · intro he
    subst he
    simp [checkConnections]
  · intro hsu
    subst hsu
    simp [checkConnections]
  · intro hmax _
    simp [checkConnections, hmax]
  · intro hmax _
    simp [checkConnections, hmax]
  · intro hmax hce hcs
    constructor
    · simp [checkConnections, hmax, hce, hcs]
    · simp [checkConnections, hmax, hce, hcs]

/-- Witness for C4 from the all-healthy initial state (threshold 3):
two failed Electric probes with Supabase healthy keep the status `online`;
three consecutive failures of both upstreams drive it to `offline`, with
the second of the three still leaving it `online`. -/
theorem connectionMonitor_debounce_witness :
    (checkConnections (checkConnections ⟨.online, 0, 0, true, true, 3⟩ false true)
        false true).currentStatus = .online ∧
    (checkConnections (checkConnections ⟨.online, 0, 0, true, true, 3⟩ false false)
        false false).currentStatus = .online ∧
    (checkConnections (checkConnections (checkConnections
        ⟨.online, 0, 0, true, true, 3⟩ false false) false false)
        false false).currentStatus = .offline :=
  ⟨(connectionMonitor_debounce ⟨.online, 0, 0, true, true, 3⟩ false true).2.2.2.1
     rfl rfl,
   ((connectionMonitor_debounce ⟨.online, 0, 0, true, true, 3⟩ false false).2.2.2.2.2
     rfl rfl rfl).1,
   ((connectionMonitor_debounce ⟨.online, 0, 0, true, true, 3⟩ false false).2.2.2.2.2
     rfl rfl rfl).2⟩

/-! ## Change-feed client (src/main/sync/electric/electric.client.ts) -/

/-- The mutable fields of `ElectricClient` touched by `fetchShapeLog`. -/
structure ClientState where
  isOnline : Bool
  syncOffset : String
  syncHandle : String
  deriving DecidableEq, Repr

/-- The persisted sync-state file (interface `SyncState`). -/
structure SyncStateFile where
  syncOffset : String
  syncHandle : String
  lastSync : String
  deriving DecidableEq, Repr

/-- An HTTP response to the shape request: status code, the two
`electric-offset` / `electric-handle` response headers (`none` = header
absent) and the body (`none` = the body fails to parse as JSON). -/
structure ShapeResponse where
  status : Nat
  electricOffset : Option String
  electricHandle : Option String
  body : Option (List RawEntry)
  deriving DecidableEq, Repr

/-- Outcome of the `fetch` call itself: a response, or a transport-level
failure (`TypeError` from fetch, `TimeoutError`, `AbortError`). -/
inductive FetchOutcome where
  | success (r : ShapeResponse)
  | networkFailure
  deriving DecidableEq, Repr

/-- The two error classes `fetchShapeLog` can raise: `NetworkError` for
transport-level failures, `ElectricError` for HTTP-status and other
application-level failures. -/
inductive FetchError where
  | networkError
  | electricError
  deriving DecidableEq, Repr

/-- What `fetchShapeLog` returns to the caller. -/
inductive FetchResult where
  | entries (es : List RawEntry)
  | error (e : FetchError)
  deriving DecidableEq, Repr

/-- The full effect of one `fetchShapeLog` call: the client state after
the call, the persisted sync-state file after the call, and the returned
value or raised error. -/
structure FetchStep where
  state : ClientState
  persisted : Option SyncStateFile
  result : FetchResult
  deriving DecidableEq, Repr

/-- The cursor carried by the request URL
(`?table=todos&offset=${syncOffset}` plus `&handle=${syncHandle}` only
when the handle is non-empty). -/
def requestCursor (s : ClientState) : String × Option String :=
  (s.syncOffset, if s.syncHandle = "" then none else some s.syncHandle)

/-- `ElectricClient.saveSyncState`: serialize the current cursor with the
current timestamp. -/
def saveSyncState (s : ClientState) (now : String) : SyncStateFile :=
  ⟨s.syncOffset, s.syncHandle, now⟩

/-- `ElectricClient.loadSyncState`: restore the cursor from the persisted
file; a missing or corrupt file, or the literal strings `""`,
`"undefined"`, `"null"`, fall back to the initial sentinel
(offset `"-1"`, empty handle). -/
def loadSyncState (file : Option SyncStateFile) : String × String :=
  match file with
  | none => ("-1", "")
  | some st =>
    (if st.syncOffset ≠ "" ∧ st.syncOffset ≠ "undefined" ∧ st.syncOffset ≠ "null" then
       st.syncOffset
     else "-1",
     if st.syncHandle ≠ "" ∧ st.syncHandle ≠ "undefined" ∧ st.syncHandle ≠ "null" then
       st.syncHandle
     else "")

/-- `ElectricClient.resetSyncOffset`: reset the cursor to the initial
sentinel and persist.  (Defined in the source but never invoked by
`fetchShapeLog` or any caller.) -/
def resetSyncOffset (s : ClientState) (now : String) : ClientState × SyncStateFile :=
  let s' := { s with syncOffset := "-1", syncHandle := "" }
  (s', saveSyncState s' now)

/-- `ElectricClient.fetchShapeLog`.  When not online it short-circuits to
an empty list.  On a response: a non-2xx status throws an `ElectricError`
(`400 Bad Request: …` for status 400, `HTTP n: …` otherwise) which the
catch block classifies as non-network, leaving `isOnline`, the cursor and
the persisted file unchanged.  On a 2xx status the in-memory cursor is
updated from the truthy response headers and `saveSyncState` is called;
`saveOk` is the outcome of its `fs.writeFileSync` — `saveSyncState`
catches a write failure and only logs it, so on failure the previous file
stays on disk while the call proceeds unchanged.  Only then is the body
parsed — a JSON parse failure returns the empty list.  A transport-level
failure marks the client offline and raises a `NetworkError` without
touching the cursor. -/
def fetchShapeLog (s : ClientState) (persisted : Option SyncStateFile) (now : String)
    (saveOk : Bool) (outcome : FetchOutcome) : FetchStep :=
  if s.isOnline = false then
    ⟨s, persisted, .entries []⟩
  else
    match outcome with
    | .networkFailure =>
      ⟨{ s with isOnline := false }, persisted, .error .networkError⟩
    | .success r =>
      if 200 ≤ r.status ∧ r.status < 300 then
        let newOffset :=
          match r.electricOffset with
          | some o => if o = "" then s.syncOffset else o
          | none => s.syncOffset
        let newHandle :=
          match r.electricHandle with
          | some h => if h = "" then s.syncHandle else h
          | none => s.syncHandle
        let s' := { s with syncOffset := newOffset, syncHandle := newHandle }
        let persisted' := if saveOk then some (saveSyncState s' now) else persisted
        match r.body with
        | some es => ⟨s', persisted', .entries es⟩
        | none => ⟨s', persisted', .entries []⟩
      else
        ⟨s, persisted, .error .electricError⟩

/-- Counterexample to C1: a pull against the cursor (offset `"42"`,
handle `"h1"`) answered with a 400 cursor-invalid rejection leaves the
stored cursor exactly as it was — it is not reset to the initial sentinel
(`"-1"`, empty handle). -/
theorem fetchShapeLog_400_does_not_reset_cursor :
    (fetchShapeLog ⟨true, "42", "h1"⟩ (some ⟨"42", "h1", "t0"⟩) "t1" true
        (.success ⟨400, none, none, none⟩)).state = ⟨true, "42", "h1"⟩ ∧
    ¬((fetchShapeLog ⟨true, "42", "h1"⟩ (some ⟨"42", "h1", "t0"⟩) "t1" true
        (.success ⟨400, none, none, none⟩)).state.syncOffset = "-1" ∧
      (fetchShapeLog ⟨true, "42", "h1"⟩ (some ⟨"42", "h1", "t0"⟩) "t1" true
        (.success ⟨400, none, none, none⟩)).state.syncHandle = "") := by
  constructor
  · rfl
  · intro hc
    exact absurd hc.1 (by decide)

/-- C1 (amended): on a 400-class cursor rejection, `fetchShapeLog` raises
the application-level `ElectricError` (not a connectivity error) and does
not mark the feed upstream unreachable (`isOnline` is untouched), but it
leaves the stored cursor and its persisted copy unchanged rather than
resetting them to the initial sentinel — `resetSyncOffset` exists but is
never invoked on this path. -/
theorem fetchShapeLog_400_raises_electricError_keeps_state
    (s : ClientState) (persisted : Option SyncStateFile) (now : String)
    (saveOk : Bool) (r : ShapeResponse)
    (hon : s.isOnline = true) (hst : r.status = 400) :
    fetchShapeLog s persisted now saveOk (.success r)
      = ⟨s, persisted, .error .electricError⟩ := by
  unfold fetchShapeLog
  rw [hon]
  simp only [Bool.true_eq_false, if_false]
  rw [if_neg (by rw [hst]; omega)]

/-- Witness for C1 (amended) at the concrete cursor (`"42"`, `"h1"`). -/
theorem fetchShapeLog_400_raises_electricError_keeps_state_witness :
    fetchShapeLog ⟨true, "42", "h1"⟩ (some ⟨"42", "h1", "t0"⟩) "t1" true
        (.success ⟨400, none, none, none⟩)
      = ⟨⟨true, "42", "h1"⟩, some ⟨"42", "h1", "t0"⟩, .error .electricError⟩ :=
  fetchShapeLog_400_raises_electricError_keeps_state ⟨true, "42", "h1"⟩
    (some ⟨"42", "h1", "t0"⟩) "t1" true ⟨400, none, none, none⟩ rfl rfl

/-- Counterexample to C6: a successful pull whose response carries offset
`"42"` and handle `"h1"` but whose `saveSyncState` disk write fails still
returns its entries while the old sync-state file stays on disk
(`saveSyncState` swallows the `fs.writeFileSync` error), so a restart
followed by another pull does not carry `offset="42"&handle="h1"`. -/
theorem fetchShapeLog_fs_failure_entries_without_persist :
    (fetchShapeLog ⟨true, "-1", ""⟩ (some ⟨"-1", "", "t0"⟩) "t1" false
        (.success ⟨200, some "42", some "h1",
          some [⟨false, none, none, none⟩]⟩)).result
      = .entries [⟨false, none, none, none⟩] ∧
    (fetchShapeLog ⟨true, "-1", ""⟩ (some ⟨"-1", "", "t0"⟩) "t1" false
        (.success ⟨200, some "42", some "h1",
          some [⟨false, none, none, none⟩]⟩)).persisted
      = some ⟨"-1", "", "t0"⟩ ∧
    requestCursor ⟨true,
        (loadSyncState (fetchShapeLog ⟨true, "-1", ""⟩ (some ⟨"-1", "", "t0"⟩)
          "t1" false (.success ⟨200, some "42", some "h1",
            some [⟨false, none, none, none⟩]⟩)).persisted).1,
        (loadSyncState (fetchShapeLog ⟨true, "-1", ""⟩ (some ⟨"-1", "", "t0"⟩)
          "t1" false (.success ⟨200, some "42", some "h1",
            some [⟨false, none, none, none⟩]⟩)).persisted).2⟩
      ≠ ("42", some "h1") :=
  ⟨rfl, rfl, by decide⟩

/-- C6 (amended): on a successful pull whose response metadata carries a
new offset and handle, `fetchShapeLog` captures them into the cursor and
attempts the disk write before returning the entries; when the write
succeeds, the sync-state file holds the new pair and a restart that
reloads the file followed by another pull issues a request carrying
exactly that offset and handle.  (When the write fails, the error is
swallowed and the entries are still returned over the old file.) -/
theorem fetchShapeLog_persists_cursor_and_resumes
    (s : ClientState) (persisted : Option SyncStateFile) (now : String)
    (saveOk : Bool) (r : ShapeResponse) (es : List RawEntry) (off hd : String)
    (hon : s.isOnline = true) (hsave : saveOk = true)
    (hok : 200 ≤ r.status ∧ r.status < 300)
    (hoff : r.electricOffset = some off) (hhd : r.electricHandle = some hd)
    (hbody : r.body = some es)
    (hoff1 : off ≠ "") (hoff2 : off ≠ "undefined") (hoff3 : off ≠ "null")
    (hhd1 : hd ≠ "") (hhd2 : hd ≠ "undefined") (hhd3 : hd ≠ "null") :
    (fetchShapeLog s persisted now saveOk (.success r)).result = .entries es ∧
    (fetchShapeLog s persisted now saveOk (.success r)).persisted
      = some ⟨off, hd, now⟩ ∧
    requestCursor ⟨true,
        (loadSyncState
          (fetchShapeLog s persisted now saveOk (.success r)).persisted).1,
        (loadSyncState
          (fetchShapeLog s persisted now saveOk (.success r)).persisted).2⟩
      = (off, some hd) := by
  have hstep : fetchShapeLog s persisted now saveOk (.success r)
      = ⟨{ s with syncOffset := off, syncHandle := hd }, some ⟨off, hd, now⟩,
         .entries es⟩ := by
    unfold fetchShapeLog
    rw [hon]
    simp only [Bool.true_eq_false, if_false]
    rw [if_pos hok, hoff, hhd, hbody, hsave]
    simp only [if_neg hoff1, if_neg hhd1]
    rfl
  rw [hstep]
  refine ⟨rfl, rfl, ?_⟩
  have hload : loadSyncState (some ⟨off, hd, now⟩) = (off, hd) := by
    simp [loadSyncState, hoff1, hoff2, hoff3, hhd1, hhd2, hhd3]
  show requestCursor ⟨true, (loadSyncState (some ⟨off, hd, now⟩)).1,
      (loadSyncState (some ⟨off, hd, now⟩)).2⟩ = (off, some hd)
  rw [hload]
  simp [requestCursor, hhd1]

/-- Witness for C6 (amended): a pull whose response carries offset `"42"`
and handle `"h1"`, with the disk write succeeding, persists them, and
after a restart the next request carries `offset="42"` and
`handle="h1"`. -/
theorem fetchShapeLog_persists_cursor_and_resumes_witness :
    (fetchShapeLog ⟨true, "-1", ""⟩ none "t1" true
        (.success ⟨200, some "42", some "h1", some []⟩)).result = .entries [] ∧
    (fetchShapeLog ⟨true, "-1", ""⟩ none "t1" true
        (.success ⟨200, some "42", some "h1", some []⟩)).persisted
      = some ⟨"42", "h1", "t1"⟩ ∧
    requestCursor ⟨true,
        (loadSyncState (fetchShapeLog ⟨true, "-1", ""⟩ none "t1" true
          (.success ⟨200, some "42", some "h1", some []⟩)).persisted).1,
        (loadSyncState (fetchShapeLog ⟨true, "-1", ""⟩ none "t1" true
          (.success ⟨200, some "42", some "h1", some []⟩)).persisted).2⟩
      = ("42", some "h1") :=
  fetchShapeLog_persists_cursor_and_resumes ⟨true, "-1", ""⟩ none "t1" true
    ⟨200, some "42", some "h1", some []⟩ [] "42" "h1" rfl rfl (by decide)
    rfl rfl rfl (by decide) (by decide) (by decide) (by decide) (by decide)
    (by decide)

/-- Counterexample to C9: a 200 response with new-cursor headers and an
unparsable body, whose `saveSyncState` disk write fails, returns the empty
list with the in-memory cursor advanced but the old sync-state file still
on disk — the new cursor has not "already been persisted". -/
theorem fetchShapeLog_parse_and_fs_failure_cursor_unpersisted :
    (fetchShapeLog ⟨true, "5", "h1"⟩ (some ⟨"5", "h1", "t0"⟩) "t1" false
        (.success ⟨200, some "7", some "h2", none⟩)).result = .entries [] ∧
    (fetchShapeLog ⟨true, "5", "h1"⟩ (some ⟨"5", "h1", "t0"⟩) "t1" false
        (.success ⟨200, some "7", some "h2", none⟩)).state.syncOffset = "7" ∧
    (fetchShapeLog ⟨true, "5", "h1"⟩ (some ⟨"5", "h1", "t0"⟩) "t1" false
        (.success ⟨200, some "7", some "h2", none⟩)).persisted
      = some ⟨"5", "h1", "t0"⟩ ∧
    (fetchShapeLog ⟨true, "5", "h1"⟩ (some ⟨"5", "h1", "t0"⟩) "t1" false
        (.success ⟨200, some "7", some "h2", none⟩)).persisted
      ≠ some (saveSyncState (fetchShapeLog ⟨true, "5", "h1"⟩
          (some ⟨"5", "h1", "t0"⟩) "t1" false
          (.success ⟨200, some "7", some "h2", none⟩)).state "t1") :=
  ⟨rfl, rfl, rfl, by decide⟩

/-- C9 (amended): a pull whose response has a success status but a body
that fails to parse as JSON returns the empty list instead of raising,
with the in-memory cursor already updated from the response headers and
the disk write of the new cursor already attempted; when that write
succeeds the new cursor has been persisted by then — the entries of that
response are never delivered to the caller.  (When the write fails, the
error is swallowed and the old file remains.) -/
theorem fetchShapeLog_parse_failure_returns_empty_after_persist
    (s : ClientState) (persisted : Option SyncStateFile) (now : String)
    (saveOk : Bool) (r : ShapeResponse)
    (hon : s.isOnline = true) (hsave : saveOk = true)
    (hok : 200 ≤ r.status ∧ r.status < 300) (hbody : r.body = none) :
    (fetchShapeLog s persisted now saveOk (.success r)).result = .entries [] ∧
    (fetchShapeLog s persisted now saveOk (.success r)).persisted
      = some (saveSyncState
          (fetchShapeLog s persisted now saveOk (.success r)).state now) ∧
    (∀ o, r.electricOffset = some o → o ≠ "" →
      (fetchShapeLog s persisted now saveOk (.success r)).state.syncOffset = o) := by
  have hstep : ∀ noff nhd,
      noff = (match r.electricOffset with
              | some o => if o = "" then s.syncOffset else o
              | none => s.syncOffset) →
      nhd = (match r.electricHandle with
             | some h => if h = "" then s.syncHandle else h
             | none => s.syncHandle) →
      fetchShapeLog s persisted now saveOk (.success r)
        = ⟨{ s with syncOffset := noff, syncHandle := nhd },
           some ⟨noff, nhd, now⟩, .entries []⟩ := by
    intro noff nhd hno hnh
    unfold fetchShapeLog
    rw [hon]
    simp only [Bool.true_eq_false, if_false]
    rw [if_pos hok, hbody, hno, hnh, hsave]
    rfl
  rw [hstep _ _ rfl rfl]
  refine ⟨rfl, rfl, ?_⟩
  intro o ho hne
  show (match r.electricOffset with
        | some o => if o = "" then s.syncOffset else o
        | none => s.syncOffset) = o
  rw [ho]
  show (if o = "" then s.syncOffset else o) = o
  rw [if_neg hne]

/-- Witness for C9 (amended): a 200 response with headers offset `"7"`,
handle `"h2"`, an unparsable body and a succeeding disk write yields the
empty list while the persisted file already carries the new cursor. -/
theorem fetchShapeLog_parse_failure_returns_empty_after_persist_witness :
    (fetchShapeLog ⟨true, "5", "h1"⟩ (some ⟨"5", "h1", "t0"⟩) "t1" true
        (.success ⟨200, some "7", some "h2", none⟩)).result = .entries [] ∧
    (fetchShapeLog ⟨true, "5", "h1"⟩ (some ⟨"5", "h1", "t0"⟩) "t1" true
        (.success ⟨200, some "7", some "h2", none⟩)).persisted
      = some (saveSyncState (fetchShapeLog ⟨true, "5", "h1"⟩
          (some ⟨"5", "h1", "t0"⟩) "t1" true
          (.success ⟨200, some "7", some "h2", none⟩)).state "t1") ∧
    (∀ o, (ShapeResponse.mk 200 (some "7") (some "h2") none).electricOffset
        = some o → o ≠ "" →
      (fetchShapeLog ⟨true, "5", "h1"⟩ (some ⟨"5", "h1", "t0"⟩) "t1" true
        (.success ⟨200, some "7", some "h2", none⟩)).state.syncOffset = o) :=
  fetchShapeLog_parse_failure_returns_empty_after_persist ⟨true, "5", "h1"⟩
    (some ⟨"5", "h1", "t0"⟩) "t1" true ⟨200, some "7", some "h2", none⟩ rfl rfl
    (by decide) rfl

/-! ## Sync coordinator — transactional apply
(src/main/sync/coordinator/sync.coordinator.ts, applyChangesToDb) -/

/-- A row of the local `todos` table as written by the apply step
(`id` is the association key; `completed` is the 0/1 column as a Bool). -/
structure TodoRow where
  title : String
  completed : Bool
  created_at : String
  deriving DecidableEq, Repr

/-- The local todos table, keyed by id. -/
def Db := List (String × TodoRow)
  deriving DecidableEq

/-- The coercion `value.completed === 'true' || value.completed === true`
applied to the incoming `completed` field. -/
def coerceCompleted : JsonVal → Bool
  | .str v => decide (v = "true")
  | .boolean v => v

/-- The row written by the insert branch:
`(id, value.title || '', completed-coercion, value.created_at || now)`. -/
def insertRowOfValue (now : String) (v : TodoValue) : TodoRow :=
  { title := v.title.getD ""
    completed := match v.completed with
      | some c => coerceCompleted c
      | none => false
    created_at := match v.created_at with
      | some c => if c = "" then now else c
      | none => now }

/-- `INSERT OR REPLACE INTO todos … WHERE`-free upsert by primary key. -/
def dbInsertOrReplace (db : Db) (id : String) (row : TodoRow) : Db :=
  match db with
  | [] => [(id, row)]
  | (i, r) :: rest =>
    if i = id then (id, row) :: rest
    else (i, r) :: dbInsertOrReplace rest id row

/-- The sparse `UPDATE todos SET … WHERE id = ?` built from the fields
present in the decoded value (`hasOwnProperty` checks). -/
def dbUpdateRow (v : TodoValue) (r : TodoRow) : TodoRow :=
  let r1 := match v.title with
    | some t => { r with title := t }
    | none => r
  let r2 := match v.completed with
    | some c => { r1 with completed := coerceCompleted c }
    | none => r1
  match v.created_at with
  | some c => { r2 with created_at := c }
  | none => r2

/-- Run the sparse update against every row matching the id, returning
the new table and the number of affected rows (`info.changes`). -/
def dbUpdate (db : Db) (id : String) (v : TodoValue) : Db × Nat :=
  match db with
  | [] => ([], 0)
  | (i, r) :: rest =>
    let p := dbUpdate rest id v
    if i = id then ((i, dbUpdateRow v r) :: p.1, p.2 + 1)
    else ((i, r) :: p.1, p.2)

/-- `DELETE FROM todos WHERE id = ?`, returning the new table and the
number of affected rows. -/
def dbDelete (db : Db) (id : String) : Db × Nat :=
  match db with
  | [] => ([], 0)
  | (i, r) :: rest =>
    let p := dbDelete rest id
    if i = id then (p.1, p.2 + 1)
    else ((i, r) :: p.1, p.2)

/-- The per-cycle counters of the apply step. -/
structure ApplyCounts where
  inserted : Nat
  updated : Nat
  deleted : Nat
  deriving DecidableEq, Repr

/-- The body of the apply loop for one `ProcessedShapeEntry`: insert →
upsert (skipped when the value is missing); update → sparse update,
skipped when the value is missing or carries none of the known fields,
counted only when rows were affected; delete → delete-by-id, tolerating
zero affected rows. -/
def applyEntryToDb (now : String) (acc : Db × ApplyCounts)
    (e : ProcessedShapeEntry) : Db × ApplyCounts :=
  match e.operation with
  | .insert =>
    match e.value with
    | some v =>
      (dbInsertOrReplace acc.1 e.id (insertRowOfValue now v),
       { acc.2 with inserted := acc.2.inserted + 1 })
    | none => acc
  | .update =>
    match e.value with
    | some v =>
      if v.title = none ∧ v.completed = none ∧ v.created_at = none then acc
      else
        let p := dbUpdate acc.1 e.id v
        if 0 < p.2 then (p.1, { acc.2 with updated := acc.2.updated + 1 })
        else (p.1, acc.2)
    | none => acc
  | .delete =>
    let p := dbDelete acc.1 e.id
    if 0 < p.2 then (p.1, { acc.2 with deleted := acc.2.deleted + 1 })
    else (p.1, acc.2)

/-- `SyncCoordinator.applyChangesToDb`: the transaction over a batch of
processed entries, starting from fresh counters. -/
def applyChangesToDb (now : String) (db : Db)
    (entries : List ProcessedShapeEntry) : Db × ApplyCounts :=
  entries.foldl (applyEntryToDb now) (db, ⟨0, 0, 0⟩)

/-- The storage effect of one entry, ignoring the counters. -/
def applyEntryDb (now : String) (db : Db) (e : ProcessedShapeEntry) : Db :=
  match e.operation with
  | .insert =>
    match e.value with
    | some v => dbInsertOrReplace db e.id (insertRowOfValue now v)
    | none => db
  | .update =>
    match e.value with
    | some v =>
      if v.title = none ∧ v.completed = none ∧ v.created_at = none then db
      else (dbUpdate db e.id v).1
    | none => db
  | .delete => (dbDelete db e.id).1

theorem applyEntryToDb_fst (now : String) (db : Db) (c : ApplyCounts)
    (e : ProcessedShapeEntry) :
    (applyEntryToDb now (db, c) e).1 = applyEntryDb now db e := by
  unfold applyEntryToDb applyEntryDb
  cases e.operation with
  | insert => cases e.value <;> rfl
  | update =>
    cases e.value with
    | none => rfl
    | some v =>
      by_cases hf : v.title = none ∧ v.completed = none ∧ v.created_at = none
      · simp [hf]
      · simp only [if_neg hf]
        by_cases hn : 0 < (dbUpdate db e.id v).2 <;> simp [hn]
  | delete =>
    by_cases hn : 0 < (dbDelete db e.id).2 <;> simp [hn]

theorem dbInsertOrReplace_last (db : Db) (id : String) (r1 r2 : TodoRow) :
    dbInsertOrReplace (dbInsertOrReplace db id r1) id r2
      = dbInsertOrReplace db id r2 := by
  induction db with
  | nil => simp [dbInsertOrReplace]
  | cons p rest ih =>
    obtain ⟨i, r⟩ := p
    by_cases h : i = id
    · subst h
      simp [dbInsertOrReplace]
    · simp [dbInsertOrReplace, h, ih]

theorem dbUpdateRow_idem (v : TodoValue) (r : TodoRow) :
    dbUpdateRow v (dbUpdateRow v r) = dbUpdateRow v r := by
  obtain ⟨tt, cc, ca⟩ := v
  unfold dbUpdateRow
  cases tt <;> cases cc <;> cases ca <;> rfl

theorem dbUpdate_fst_idem (db : Db) (id : String) (v : TodoValue) :
    (dbUpdate (dbUpdate db id v).1 id v).1 = (dbUpdate db id v).1 := by
  induction db with
  | nil => rfl
  | cons p rest ih =>
    obtain ⟨i, r⟩ := p
    by_cases h : i = id
    · subst h
      simp [dbUpdate, dbUpdateRow_idem, ih]
    · simp [dbUpdate, h, ih]

theorem applyEntryDb_idem (now₁ now₂ : String) (db : Db)
    (e : ProcessedShapeEntry)
    (h : e.operation = .insert ∨ e.operation = .update) :
    applyEntryDb now₂ (applyEntryDb now₁ db e) e = applyEntryDb now₂ db e := by
  rcases h with h | h <;> unfold applyEntryDb <;> rw [h]
  · cases e.value with
    | none => rfl
    | some v => exact dbInsertOrReplace_last db e.id _ _
  · cases e.value with
    | none => rfl
    | some v =>
      by_cases hf : v.title = none ∧ v.completed = none ∧ v.created_at = none
      · simp [hf]
      · simp only [if_neg hf]
        exact dbUpdate_fst_idem db e.id v

/-- C5: applying the same Insert or Update `ProcessedLogEntry` to local
storage twice (each time through `applyChangesToDb`, at arbitrary clock
readings) leaves the table in the same state as applying it once. -/
theorem applyChangesToDb_insert_update_idempotent
    (now₁ now₂ : String) (db : Db) (e : ProcessedShapeEntry)
    (h : e.operation = .insert ∨ e.operation = .update) :
    (applyChangesToDb now₂ (applyChangesToDb now₁ db [e]).1 [e]).1
      = (applyChangesToDb now₂ db [e]).1 := by
  show (applyEntryToDb now₂ ((applyEntryToDb now₁ (db, ⟨0, 0, 0⟩) e).1, ⟨0, 0, 0⟩) e).1
      = (applyEntryToDb now₂ (db, ⟨0, 0, 0⟩) e).1
  rw [applyEntryToDb_fst, applyEntryToDb_fst, applyEntryToDb_fst,
    applyEntryDb_idem now₁ now₂ db e h]

/-- Witness for C5: upserting the same row twice (with different clock
readings) equals upserting it once, on a table already holding `t1`. -/
theorem applyChangesToDb_insert_update_idempotent_witness :
    (applyChangesToDb "t2"
        (applyChangesToDb "t1" [("t1", ⟨"old", false, "c0"⟩)]
          [⟨.insert, "t1", some ⟨some "new", some (.boolean true), none⟩⟩]).1
        [⟨.insert, "t1", some ⟨some "new", some (.boolean true), none⟩⟩]).1
      = (applyChangesToDb "t2" [("t1", ⟨"old", false, "c0"⟩)]
          [⟨.insert, "t1", some ⟨some "new", some (.boolean true), none⟩⟩]).1 :=
  applyChangesToDb_insert_update_idempotent "t1" "t2"
    [("t1", ⟨"old", false, "c0"⟩)]
    ⟨.insert, "t1", some ⟨some "new", some (.boolean true), none⟩⟩
    (Or.inl rfl)

/-! ## Sync coordinator — queue replay
(src/main/sync/coordinator/sync.coordinator.ts, processPendingOperations) -/

/-- The result record of `processPendingOperations`
(interface `PendingOperationsResult`). -/
structure PendingOperationsResult where
  total : Nat
  processed : Nat
  succeeded : Nat
  failed : Nat
  deriving DecidableEq, Repr

/-- Outcome of one Supabase write call
(`createTodo` / `updateTodo` / `deleteTodo`): it resolves to a boolean, or
throws a `NetworkError` (which stops the batch) or some other error
(counted as failed, processing continues). -/
inductive RemoteCallResult where
  | ok
  | rejected
  | netError
  | appError
  deriving DecidableEq, Repr

/-- Outcome of the `supabaseService.checkConnection()` guard at the top of
`processPendingOperations`: reachable, unreachable, or the check threw. -/
inductive ProbeOutcome where
  | ok
  | notConnected
  | threw
  deriving DecidableEq, Repr

/-- Observable effect of one `processPendingOperations` call: the result
record, the remote calls issued in order, the durable queue afterwards,
whether the status was set to syncing / the write target probed, and
whether `pending-operations-processed` was emitted. -/
structure ReplayOutcome where
  result : PendingOperationsResult
  calls : List PendingOperation
  queue : List PendingOperation
  setSyncingFlag : Bool
  probed : Bool
  emittedProcessed : Bool
  deriving DecidableEq, Repr

/-- The `for (const op of allOperations)` loop: issue the remote call; on
success remove the operation from the durable queue; on a rejection or an
application error count it failed and continue; on a `NetworkError` count
it failed and stop the remainder of the batch.  Returns the result record,
the calls issued and the durable queue. -/
def replayLoop (remote : PendingOperation → RemoteCallResult)
    (queue : List PendingOperation) (res : PendingOperationsResult) :
    List PendingOperation →
      PendingOperationsResult × List PendingOperation × List PendingOperation
  | [] => (res, [], queue)
  | op :: rest =>
    match remote op with
    | .ok =>
      let queue' := clearPendingOperation queue op.todoId (some op.type)
      let r := replayLoop remote queue'
        { res with processed := res.processed + 1, succeeded := res.succeeded + 1 } rest
      (r.1, op :: r.2.1, r.2.2)
    | .rejected =>
      let r := replayLoop remote queue
        { res with processed := res.processed + 1, failed := res.failed + 1 } rest
      (r.1, op :: r.2.1, r.2.2)
    | .appError =>
      let r := replayLoop remote queue
        { res with processed := res.processed + 1, failed := res.failed + 1 } rest
      (r.1, op :: r.2.1, r.2.2)
    | .netError =>
      ({ res with processed := res.processed + 1, failed := res.failed + 1 },
       [op], queue)

/-- `SyncCoordinator.processPendingOperations`: an empty queue returns the
zero result and emits immediately, without touching the status or probing;
otherwise the status is set to syncing and the write target probed — a
failed probe reverts and returns the zero-progress result — and the
snapshot is partitioned into creates, updates and deletes, replayed in
that concatenation order. -/
def processPendingOperations (remote : PendingOperation → RemoteCallResult)
    (probe : ProbeOutcome) (q : List PendingOperation) : ReplayOutcome :=
  if q.length = 0 then
    ⟨⟨q.length, 0, 0, 0⟩, [], q, false, false, true⟩
  else
    match probe with
    | .notConnected => ⟨⟨q.length, 0, 0, 0⟩, [], q, true, true, true⟩
    | .threw => ⟨⟨q.length, 0, 0, 0⟩, [], q, true, true, true⟩
    | .ok =>
      let creates := q.filter fun op => decide (op.type = .create)
      let updates := q.filter fun op => decide (op.type = .update)
      let deletes := q.filter fun op => decide (op.type = .delete)
      let allOperations := creates ++ updates ++ deletes
      let r := replayLoop remote q ⟨q.length, 0, 0, 0⟩ allOperations
      ⟨r.1, r.2.1, r.2.2, true, true, true⟩

theorem replayLoop_calls_take (remote : PendingOperation → RemoteCallResult)
    (ops : List PendingOperation) :
    ∀ (queue : List PendingOperation) (res : PendingOperationsResult),
      (∃ k, (replayLoop remote queue res ops).2.1 = ops.take k) ∧
      ((∀ op ∈ ops, remote op ≠ .netError) →
        (replayLoop remote queue res ops).2.1 = ops) := by
  induction ops with
  | nil =>
    intro queue res
    exact ⟨⟨0, rfl⟩, fun _ => rfl⟩
  | cons op rest ih =>
    intro queue res
    constructor
    · unfold replayLoop
      cases hrem : remote op with
      | ok =>
        obtain ⟨k, hk⟩ := (ih (clearPendingOperation queue op.todoId (some op.type))
          { res with processed := res.processed + 1, succeeded := res.succeeded + 1 }).1
        exact ⟨k + 1, by simp [hk]⟩
      | rejected =>
        obtain ⟨k, hk⟩ := (ih queue
          { res with processed := res.processed + 1, failed := res.failed + 1 }).1
        exact ⟨k + 1, by simp [hk]⟩
      | appError =>
        obtain ⟨k, hk⟩ := (ih queue
          { res with processed := res.processed + 1, failed := res.failed + 1 }).1
        exact ⟨k + 1, by simp [hk]⟩
      | netError => exact ⟨1, by simp⟩
    · intro hnn
      have hop : remote op ≠ .netError := hnn op (List.mem_cons_self _ _)
      unfold replayLoop
      cases hrem : remote op with
      | ok =>
        have hr := (ih (clearPendingOperation queue op.todoId (some op.type))
          { res with processed := res.processed + 1, succeeded := res.succeeded + 1 }).2
          fun x hx => hnn x (List.mem_cons_of_mem _ hx)
        simp [hr]
      | rejected =>
        have hr := (ih queue
          { res with processed := res.processed + 1, failed := res.failed + 1 }).2
          fun x hx => hnn x (List.mem_cons_of_mem _ hx)
        simp [hr]
      | appError =>
        have hr := (ih queue
          { res with processed := res.processed + 1, failed := res.failed + 1 }).2
          fun x hx => hnn x (List.mem_cons_of_mem _ hx)
        simp [hr]
      | netError => exact absurd hrem hop

/-- C2: with the write target reachable, the replay issues its remote
calls following the partition creates ++ updates ++ deletes of the queue
snapshot (a prefix of it when a `NetworkError` stops the batch, all of it
when no call raises one), regardless of enqueue timestamps. -/
theorem processPendingOperations_order
    (remote : PendingOperation → RemoteCallResult) (q : List PendingOperation)
    (hne : q ≠ []) :
    (∃ k, (processPendingOperations remote .ok q).calls
        = ((q.filter fun op => decide (op.type = .create))
            ++ (q.filter fun op => decide (op.type = .update))
            ++ (q.filter fun op => decide (op.type = .delete))).take k) ∧
    ((∀ op ∈ (q.filter fun op => decide (op.type = .create))
            ++ (q.filter fun op => decide (op.type = .update))
            ++ (q.filter fun op => decide (op.type = .delete)),
        remote op ≠ .netError) →
      (processPendingOperations remote .ok q).calls
        = (q.filter fun op => decide (op.type = .create))
            ++ (q.filter fun op => decide (op.type = .update))
            ++ (q.filter fun op => decide (op.type = .delete))) := by
  have hlen : ¬(q.length = 0) := by
    intro hc
    exact hne (List.length_eq_zero.mp hc)
  unfold processPendingOperations
  rw [if_neg hlen]
  exact replayLoop_calls_take remote _ q ⟨q.length, 0, 0, 0⟩

/-- Witness for C2: pending Update(A), Delete(B), Create(A) enqueued in
that scrambled timestamp order, all remote calls succeeding: the calls
are issued as Create(A), Update(A), Delete(B). -/
theorem processPendingOperations_order_witness :
    ([⟨.update, "A", some "p2", 5⟩, ⟨.delete, "B", none, 1⟩,
      ⟨.create, "A", some "p1", 9⟩] : List PendingOperation) ≠ [] ∧
    (processPendingOperations (fun _ => .ok) .ok
        [⟨.update, "A", some "p2", 5⟩, ⟨.delete, "B", none, 1⟩,
         ⟨.create, "A", some "p1", 9⟩]).calls
      = [⟨.create, "A", some "p1", 9⟩, ⟨.update, "A", some "p2", 5⟩,
         ⟨.delete, "B", none, 1⟩] := by
  constructor
  · decide
  · have h := (processPendingOperations_order (fun _ => .ok)
      [⟨.update, "A", some "p2", 5⟩, ⟨.delete, "B", none, 1⟩,
       ⟨.create, "A", some "p1", 9⟩] (by decide)).2 (fun op _ => by decide)
    rw [h]
    decide

/-- C10: with an empty pending queue, `processPendingOperations` returns
the all-zero result and emits `pending-operations-processed` immediately,
without setting the status to syncing and without probing the write
target. -/
theorem processPendingOperations_empty
    (remote : PendingOperation → RemoteCallResult) (probe : ProbeOutcome) :
    processPendingOperations remote probe []
      = ⟨⟨0, 0, 0, 0⟩, [], [], false, false, true⟩ := rfl
